import Mathlib

/-!
# Verification of the Tello drone agent core

A shallow embedding, in Lean 4, of the command transport
(`src/drone/simple_tello.py`), the command-queue executor and fail-safe
supervisor (`src/main.py`), and the natural-language control agent
(`src/agents/control_agent.py`), together with theorems settling the
spec claims about them.

Conventions used throughout:
* Python strings are Lean `String`s; Python's `str.lower()` is `lowerStr`
  (the texts involved are ASCII) and Python's substring test `a in b` is
  `strContains b a`.
* Python dicts keyed by strings are association lists in insertion order,
  with first-match lookup (`dictLookup`) and replace-or-append insertion
  (`dictInsert`).
* Wall-clock durations are measured in integer milliseconds.
* The boolean `drone_is_flying` of `TelloDroneAgent` is kept as a `Bool`:
  `true` is the spec's `AIRBORNE`, `false` is `GROUNDED`.
* External effects (the vehicle's reply to a dispatched command, the
  Azure OpenAI call, frames from the camera) are oracle parameters of the
  embedded functions, so each embedded function is total and executable.
-/

/-- Python `str.lower()` restricted to the ASCII texts the agent handles:
lower-case every character. -/
def lowerStr (s : String) : String := ⟨s.data.map Char.toLower⟩

/-- Python's substring containment `sub in s` (on the character list of the
strings). -/
def strContains (s sub : String) : Bool := decide (sub.data <:+: s.data)

/-- First-match lookup in a Python dict modelled as an association list. -/
def dictLookup {α : Type} : List (String × α) → String → Option α
  | [], _ => none
  | p :: rest, key => if p.1 = key then some p.2 else dictLookup rest key

/-- Python dict assignment `d[k] = v`: overwrite in place when the key is
present, append otherwise (insertion order is preserved). -/
def dictInsert {α : Type} (d : List (String × α)) (k : String) (v : α) :
    List (String × α) :=
  if (dictLookup d k).isSome then
    d.map (fun p => if p.1 = k then (k, v) else p)
  else
    d ++ [(k, v)]

/-- The drone action kinds dispatched by the executor: the `DroneAction`
enum of `drone/commands.py`, whose members `TAKEOFF`, `LAND`,
`ROTATE_CLOCKWISE` and `EMERGENCY_STOP` are the ones `main.py` names. -/
inductive DroneAction where
  | takeoff
  | land
  | move
  | rotate_cw
  | rotate_ccw
  | hover
  | scanAround
  | emergency_stop
  deriving DecidableEq, Repr

/-! ## Executor flight-state tracking (`main.py`, `execute_user_commands`)

Lines 150-156 of `main.py`: after the control agent returns a command,
`drone_is_flying` is set to `True` on `TAKEOFF`, to `False` on `LAND`,
and is left untouched by every other action (including
`EMERGENCY_STOP`). -/

/-- One state update of `drone_is_flying` for a dispatched action, exactly
as the `if command.action == DroneAction.TAKEOFF ... elif ... LAND` branch
does it. -/
def updateFlyingState (flying : Bool) (a : DroneAction) : Bool :=
  if a = DroneAction.takeoff then true
  else if a = DroneAction.land then false
  else flying

/-- The flight state after the executor has dispatched a whole sequence of
actions, starting from `flying`. -/
def runFlightUpdates (flying : Bool) (l : List DroneAction) : Bool :=
  l.foldl updateFlyingState flying

/-! ## Fail-safe supervisor (`main.py`, `TelloDroneAgent.cleanup`)

`cleanup` runs `self.running = False`; then, when `drone_is_flying` and a
controller exists and the agent is not vision-only, it dispatches a `LAND`
command under `asyncio.wait_for(..., timeout=10.0)`.  When that call
returns falsy it dispatches `EMERGENCY_STOP`; when it raises
`asyncio.TimeoutError` or any other exception the handler only logs; the
`finally` block always clears `drone_is_flying`.  Afterwards the camera is
stopped (when present) and the controller disconnected (when present). -/

/-- Outcome of the awaited `tello_controller.execute_command(landing_command)`
call inside `cleanup`, as seen through `asyncio.wait_for`. -/
inductive LandOutcome where
  | success
  | failure
  | timedOut
  | raised : String → LandOutcome
  deriving DecidableEq, Repr

/-- The agent-instance state `cleanup` reads, plus the oracle for the land
dispatch. -/
structure CleanupEnv where
  flying : Bool
  hasController : Bool
  visionOnly : Bool
  hasCamera : Bool
  landOutcome : LandOutcome
  deriving DecidableEq, Repr

/-- Everything observable about one `cleanup` run: which commands were
dispatched, the timeout bound (in ms) put on the land attempt, the final
`drone_is_flying`, and whether the remaining resource cleanup steps ran. -/
structure CleanupResult where
  landAttempted : Bool
  landTimeoutMs : Option ℕ
  emergencyAttempted : Bool
  finalFlying : Bool
  cameraStopped : Bool
  disconnected : Bool
  deriving DecidableEq, Repr

/-- `TelloDroneAgent.cleanup` (main.py lines 372-408). -/
def cleanup (env : CleanupEnv) : CleanupResult :=
  if env.flying && env.hasController && !env.visionOnly then
    { landAttempted := true
      landTimeoutMs := some 10000
      emergencyAttempted :=
        match env.landOutcome with
        | LandOutcome.failure => true
        | _ => false
      finalFlying := false
      cameraStopped := env.hasCamera
      disconnected := env.hasController }
  else
    { landAttempted := false
      landTimeoutMs := none
      emergencyAttempted := false
      finalFlying := env.flying
      cameraStopped := env.hasCamera
      disconnected := env.hasController }

/-! ## Theorems for claims C3, C4, C1 -/

/-- C3 counterexample: starting GROUNDED, executing `takeoff` then
`emergency_stop` leaves the executor's flight state AIRBORNE (`true`), not
GROUNDED as the claim states — `execute_user_commands` updates
`drone_is_flying` only on `TAKEOFF` and `LAND`. -/
theorem C3_state_machine_counterexample :
    runFlightUpdates false [DroneAction.takeoff, DroneAction.emergency_stop] = true := by
  decide

/-- C3 (amended): for the executor's flight state, starting GROUNDED,
`takeoff` then `land` ends GROUNDED; `takeoff` then `emergency_stop` ends
AIRBORNE, because the executor does not update the flight flag on
`emergency_stop`; and no action sequence reaches a state other than
GROUNDED (`false`) or AIRBORNE (`true`). -/
theorem C3_state_machine :
    runFlightUpdates false [DroneAction.takeoff, DroneAction.land] = false ∧
    runFlightUpdates false [DroneAction.takeoff, DroneAction.emergency_stop] = true ∧
    ∀ (l : List DroneAction) (b : Bool),
      runFlightUpdates b l = false ∨ runFlightUpdates b l = true := by
  refine ⟨by decide, by decide, ?_⟩
  intro l b
  cases h : runFlightUpdates b l
  · exact Or.inl rfl
  · exact Or.inr rfl

/-- C4: invoking `cleanup` twice in succession while AIRBORNE (with a
controller, not vision-only) dispatches exactly one landing attempt: the
first run lands (whatever the dispatch outcome) and clears the flight
flag in its `finally` block, so the second run's AIRBORNE check fails and
it dispatches nothing. -/
theorem C4_cleanup_idempotent (o1 o2 : LandOutcome) (cam : Bool) :
    (cleanup ⟨true, true, false, cam, o1⟩).landAttempted = true ∧
    (cleanup ⟨true, true, false, cam, o1⟩).finalFlying = false ∧
    (cleanup ⟨(cleanup ⟨true, true, false, cam, o1⟩).finalFlying,
              true, false, cam, o2⟩).landAttempted = false := by
  cases o1 <;> simp [cleanup]

/-- C1 counterexample: when the land attempt inside `cleanup` times out
(`asyncio.TimeoutError`), the code only logs the error — it does not
escalate to `emergency_stop`, contrary to the claim that timeout and
failure both escalate. -/
theorem C1_failsafe_counterexample :
    (cleanup ⟨true, true, false, true, LandOutcome.timedOut⟩).landAttempted = true ∧
    (cleanup ⟨true, true, false, true, LandOutcome.timedOut⟩).emergencyAttempted = false := by
  decide

/-- C1 (amended): if `cleanup` runs while AIRBORNE (with a controller, not
vision-only), it attempts `land` under a bounded 10-second overall
timeout; it escalates to `emergency_stop` exactly when that land returns
failure (on timeout or exception it records the outcome without
escalating); in every case the flight flag is cleared to GROUNDED and the
remaining resource cleanup (camera stop, controller disconnect) still
runs. -/
theorem C1_failsafe_behavior (env : CleanupEnv)
    (hf : env.flying = true) (hc : env.hasController = true)
    (hv : env.visionOnly = false) :
    (cleanup env).landAttempted = true ∧
    (cleanup env).landTimeoutMs = some 10000 ∧
    ((cleanup env).emergencyAttempted = true ↔ env.landOutcome = LandOutcome.failure) ∧
    (cleanup env).finalFlying = false ∧
    (cleanup env).cameraStopped = env.hasCamera ∧
    (cleanup env).disconnected = true := by
  obtain ⟨f, c, v, cam, o⟩ := env
  simp only at hf hc hv
  subst hf; subst hc; subst hv
  cases o <;> simp [cleanup]

/-- Witness for C1: a concrete AIRBORNE teardown whose land dispatches and
fails, evaluated through `C1_failsafe_behavior`. -/
theorem C1_failsafe_witness :
    (cleanup ⟨true, true, false, true, LandOutcome.failure⟩).landAttempted = true ∧
    (cleanup ⟨true, true, false, true, LandOutcome.failure⟩).landTimeoutMs = some 10000 ∧
    ((cleanup ⟨true, true, false, true, LandOutcome.failure⟩).emergencyAttempted = true ↔
      (⟨true, true, false, true, LandOutcome.failure⟩ : CleanupEnv).landOutcome =
        LandOutcome.failure) ∧
    (cleanup ⟨true, true, false, true, LandOutcome.failure⟩).finalFlying = false ∧
    (cleanup ⟨true, true, false, true, LandOutcome.failure⟩).cameraStopped =
      (⟨true, true, false, true, LandOutcome.failure⟩ : CleanupEnv).hasCamera ∧
    (cleanup ⟨true, true, false, true, LandOutcome.failure⟩).disconnected = true :=
  C1_failsafe_behavior ⟨true, true, false, true, LandOutcome.failure⟩ rfl rfl rfl

/-! ## Transport send retry (`simple_tello.py`, `SimpleTello.send_command`)

Lines 212-223: `for attempt in range(3): try: sendto; break; except
OSError: if attempt == 2: return None; time.sleep(0.5)`.  The oracle
`sendOk i` says whether the underlying `socket.sendto` succeeds on attempt
`i` (0-based); sleeps are recorded in milliseconds. -/

/-- The `for attempt in range(3)` retry loop over the remaining attempt
indices: returns the index of the successful attempt (after which the
code proceeds to wait for a response), or `none` when the last attempt
(`attempt == 2`) also fails, together with the list of backoff sleeps
performed. -/
def sendRetry (sendOk : ℕ → Bool) : List ℕ → Option ℕ × List ℕ
  | [] => (none, [])
  | attempt :: rest =>
    if sendOk attempt then (some attempt, [])
    else if attempt = 2 then (none, [])
    else
      let r := sendRetry sendOk rest
      (r.1, 500 :: r.2)

/-- The send phase of `send_command`: the retry loop run on attempts
`0, 1, 2`. -/
def sendCommandSendPhase (sendOk : ℕ → Bool) : Option ℕ × List ℕ :=
  sendRetry sendOk (List.range 3)

/-! ## Transport response wait (`simple_tello.py`, `send_command` lines 225-241)

The waiter loops: `while self.response is None:` compute `elapsed`; if
`elapsed > timeout` return `None` (the Timeout failure); otherwise
`response_condition.wait(timeout=0.1)` and loop.  Each loop-top visit is
modelled as a `WaitCheck` carrying the elapsed wall-clock time at that
visit and the contents of the shared response slot observed there. -/

/-- One loop-top observation of the waiter: the elapsed time (ms) when the
check happens and the response slot's contents at that instant. -/
structure WaitCheck where
  elapsed : ℤ
  response : Option (List ℕ)
  deriving DecidableEq, Repr

/-- How one `send_command` wait ends. -/
inductive WaitResult where
  | gotResponse : List ℕ → WaitResult
  | timedOut : ℤ → WaitResult
  | stillWaiting : WaitResult
  deriving DecidableEq, Repr

/-- The waiter loop of `send_command` over a schedule of loop-top
observations: at each check it first re-tests the `while` condition
(returning the response when the slot is filled), then fails with the
Timeout outcome when the elapsed time strictly exceeds `timeout`,
otherwise waits for the next check.  `stillWaiting` marks an exhausted
(finite) schedule on which the loop has not yet decided. -/
def waitForResponse (timeout : ℤ) : List WaitCheck → WaitResult
  | [] => WaitResult.stillWaiting
  | c :: rest =>
    match c.response with
    | some r => WaitResult.gotResponse r
    | none =>
      if timeout < c.elapsed then WaitResult.timedOut c.elapsed
      else waitForResponse timeout rest

/-- The wake-up schedule is well-paced for granularity `eps`, relative to
the send instant (elapsed `0`): the first check happens within `eps` of
the send, and consecutive checks are at most `eps` apart.
(`response_condition.wait(timeout=0.1)` bounds the gap by 100 ms plus
scheduling slack.) -/
def wellPaced (eps : ℤ) (checks : List WaitCheck) : Prop :=
  List.Chain (fun a b => b ≤ a + eps) 0 (checks.map (fun c => c.elapsed))

/-- Auxiliary timeout bound for `waitForResponse`: if every observed slot
is empty, some check exceeds the deadline, and the checks' elapsed times
form a chain of gaps at most `eps` starting from a base instant
`prev ≤ timeout`, then the loop fails with the Timeout outcome at an
elapsed time in `(timeout, timeout + eps]`. -/
theorem waitForResponse_timeout_aux (timeout eps : ℤ) :
    ∀ (checks : List WaitCheck) (prev : ℤ), prev ≤ timeout →
    (∀ c ∈ checks, c.response = none) →
    (∃ c ∈ checks, timeout < c.elapsed) →
    List.Chain (fun a b => b ≤ a + eps) prev (checks.map (fun c => c.elapsed)) →
    ∃ t, waitForResponse timeout checks = WaitResult.timedOut t ∧
      timeout < t ∧ t ≤ timeout + eps := by
  intro checks
  induction checks with
  | nil =>
    intro prev _ _ hex _
    obtain ⟨c, hc, _⟩ := hex
    exact absurd hc (List.not_mem_nil c)
  | cons c rest ih =>
    intro prev hprev hnone hex hpace
    rcases List.chain_cons.mp hpace with ⟨hhead, hchain⟩
    have hcnone : c.response = none := hnone c (List.mem_cons_self c rest)
    by_cases hlt : timeout < c.elapsed
    · refine ⟨c.elapsed, ?_, hlt, ?_⟩
      · simp [waitForResponse, hcnone, hlt]
      · calc c.elapsed ≤ prev + eps := hhead
          _ ≤ timeout + eps := by omega
    · have hle : c.elapsed ≤ timeout := by omega
      have hnone' : ∀ d ∈ rest, d.response = none := fun d hd =>
        hnone d (List.mem_cons_of_mem c hd)
      have hex' : ∃ d ∈ rest, timeout < d.elapsed := by
        obtain ⟨d, hd, hdlt⟩ := hex
        rcases List.mem_cons.mp hd with h | h
        · exact absurd (h ▸ hdlt) hlt
        · exact ⟨d, h, hdlt⟩
      obtain ⟨t, hrun, ht1, ht2⟩ := ih c.elapsed hle hnone' hex' hchain
      refine ⟨t, ?_, ht1, ht2⟩
      simpa [waitForResponse, hcnone, hlt] using hrun

/-- Auxiliary delivery lemma for `waitForResponse`: a response visible at
some check, all of whose predecessors saw an empty slot at or before the
deadline, is returned. -/
theorem waitForResponse_delivers (timeout : ℤ) :
    ∀ (pre : List WaitCheck) (c : WaitCheck) (rest : List WaitCheck) (r : List ℕ),
    (∀ d ∈ pre, d.response = none ∧ d.elapsed ≤ timeout) →
    c.response = some r →
    waitForResponse timeout (pre ++ c :: rest) = WaitResult.gotResponse r := by
  intro pre
  induction pre with
  | nil =>
    intro c rest r _ hc
    simp [waitForResponse, hc]
  | cons d pre' ih =>
    intro c rest r hpre hc
    obtain ⟨hdnone, hdle⟩ := hpre d (List.mem_cons_self d pre')
    have hnotlt : ¬ timeout < d.elapsed := by omega
    have := ih c rest r (fun e he => hpre e (List.mem_cons_of_mem d he)) hc
    simpa [waitForResponse, hdnone, hnotlt] using this

/-- Backoff discipline of the retry loop: every sleep it performs is the
fixed 500 ms backoff. -/
theorem sendRetry_backoff (sendOk : ℕ → Bool) :
    ∀ l : List ℕ, ∀ d ∈ (sendRetry sendOk l).2, d = 500 := by
  intro l
  induction l with
  | nil => intro d hd; simp [sendRetry] at hd
  | cons a rest ih =>
    intro d hd
    by_cases ha : sendOk a = true
    · simp [sendRetry, ha] at hd
    · by_cases ha2 : a = 2
      · subst ha2
        simp [sendRetry, ha] at hd
      · simp [sendRetry, ha, ha2] at hd
        rcases hd with h | h
        · exact h
        · exact ih d h

/-- C5: for every pattern of transient send failures, `send_command`'s
send phase succeeds — proceeding to wait for a response — at the first of
the 3 attempts whose underlying `sendto` succeeds, fails (the `IOError`
branch, surfaced as `None` after logging "Failed to send command after 3
attempts") exactly when all 3 attempts fail, and sleeps only the fixed
500 ms backoff between attempts. -/
theorem C5_send_retry (sendOk : ℕ → Bool) :
    ((∃ i, i < 3 ∧ sendOk i = true) →
      ∃ i, i < 3 ∧ sendOk i = true ∧ (∀ j, j < i → sendOk j = false) ∧
        (sendCommandSendPhase sendOk).1 = some i) ∧
    ((∀ i, i < 3 → sendOk i = false) → (sendCommandSendPhase sendOk).1 = none) ∧
    (∀ d ∈ (sendCommandSendPhase sendOk).2, d = 500) := by
  have hrange : List.range 3 = [0, 1, 2] := by decide
  refine ⟨?_, ?_, ?_⟩
  · intro hex
    by_cases h0 : sendOk 0 = true
    · exact ⟨0, by omega, h0, fun j hj => absurd hj (by omega),
        by simp [sendCommandSendPhase, hrange, sendRetry, h0]⟩
    · have h0f : sendOk 0 = false := by simpa using h0
      by_cases h1 : sendOk 1 = true
      · refine ⟨1, by omega, h1, ?_, ?_⟩
        · intro j hj
          have hj0 : j = 0 := by omega
          simpa [hj0] using h0f
        · simp [sendCommandSendPhase, hrange, sendRetry, h0f, h1]
      · have h1f : sendOk 1 = false := by simpa using h1
        by_cases h2 : sendOk 2 = true
        · refine ⟨2, by omega, h2, ?_, ?_⟩
          · intro j hj
            interval_cases j
            · exact h0f
            · exact h1f
          · simp [sendCommandSendPhase, hrange, sendRetry, h0f, h1f, h2]
        · have h2f : sendOk 2 = false := by simpa using h2
          obtain ⟨i, hi, hsi⟩ := hex
          interval_cases i
          · exact absurd hsi (by simp [h0f])
          · exact absurd hsi (by simp [h1f])
          · exact absurd hsi (by simp [h2f])
  · intro hall
    simp [sendCommandSendPhase, hrange, sendRetry,
      hall 0 (by omega), hall 1 (by omega), hall 2 (by omega)]
  · exact fun d hd => sendRetry_backoff sendOk (List.range 3) d hd

/-- Witness for C5: a transport whose `sendto` succeeds only on the second
attempt proceeds to wait after attempt 1; one failing on all attempts
gives up, both evaluated through `C5_send_retry`. -/
theorem C5_send_retry_witness :
    (∃ i, i < 3 ∧ (fun j => decide (j = 1)) i = true ∧
      (∀ k, k < i → (fun j => decide (j = 1)) k = false) ∧
      (sendCommandSendPhase (fun j => decide (j = 1))).1 = some i) ∧
    (sendCommandSendPhase (fun _ => false)).1 = none :=
  ⟨(C5_send_retry (fun j => decide (j = 1))).1 ⟨1, by decide⟩,
   (C5_send_retry (fun _ => false)).2.1 (fun _ _ => rfl)⟩

/-- The wait ended with the Timeout outcome at an elapsed time inside
`[lo, hi]`. -/
def timedOutWithin (res : WaitResult) (lo hi : ℤ) : Prop :=
  match res with
  | WaitResult.timedOut t => lo ≤ t ∧ t ≤ hi
  | _ => False

/-- C6: a `send_command` wait with timeout `T` whose response slot is
never filled fails with the Timeout outcome at a wall-clock instant in
`[T, T + eps]`, where `eps` bounds the pacing of the waiter's loop-top
checks (the loop re-checks at least every `wait(timeout=0.1)` interval);
and a response visible at a check before the deadline is returned
instead. -/
theorem C6_timeout_correct (timeout eps : ℤ) (checks pre rest : List WaitCheck)
    (c : WaitCheck) (r : List ℕ)
    (hT : 0 ≤ timeout)
    (hnone : ∀ d ∈ checks, d.response = none)
    (hex : ∃ d ∈ checks, timeout < d.elapsed)
    (hpace : wellPaced eps checks)
    (hpre : ∀ d ∈ pre, d.response = none ∧ d.elapsed ≤ timeout)
    (hc : c.response = some r) :
    timedOutWithin (waitForResponse timeout checks) timeout (timeout + eps) ∧
    waitForResponse timeout (pre ++ c :: rest) = WaitResult.gotResponse r := by
  constructor
  · obtain ⟨t, hrun, h1, h2⟩ :=
      waitForResponse_timeout_aux timeout eps checks 0 hT hnone hex hpace
    rw [hrun]
    exact ⟨le_of_lt h1, h2⟩
  · exact waitForResponse_delivers timeout pre c rest r hpre hc

/-- Witness for C6: with `T = 1000` ms and check pacing `eps = 1000` ms, a
never-filled slot times out at 1400 ms, inside `[1000, 2000]`, and a
response visible at the 800 ms check is returned, both evaluated through
`C6_timeout_correct`. -/
theorem C6_timeout_correct_witness :
    timedOutWithin (waitForResponse 1000 [⟨500, none⟩, ⟨1400, none⟩]) 1000 (1000 + 1000) ∧
    waitForResponse 1000 ([⟨500, none⟩] ++ ⟨800, some [111, 107]⟩ :: []) =
      WaitResult.gotResponse [111, 107] :=
  C6_timeout_correct 1000 1000 [⟨500, none⟩, ⟨1400, none⟩] [⟨500, none⟩] []
    ⟨800, some [111, 107]⟩ [111, 107] (by decide) (by decide) (by decide)
    (List.Chain.cons (by decide) (List.Chain.cons (by decide) List.Chain.nil))
    (by decide) rfl

/-! ## Transport single-flight (`simple_tello.py`, `send_command` vs. itself)

`send_command` takes no lock for its whole duration: the
`response_condition` guards only the assignments to `self.response`.  Its
observable phases, as atomic steps of one caller thread, are:

* pc 0 → 1 : `with self.response_condition: self.response = None`
  (clear any stale slot);
* pc 1 → 2 : `self.socket.sendto(...)` — from here the command is
  outstanding at the transport;
* pc 2     : the wait loop; it leaves (pc 3, the slot's resolution) only
  once it observes `self.response` non-empty.

A third step kind models the background `_receive_thread` storing an
inbound datagram in the slot and notifying.  Nothing in the code makes a
caller at pc 0 or 1 wait for the other caller's slot to resolve. -/

/-- A scheduling choice: run caller thread A, caller thread B, or the
background receiver. -/
inductive SchedStep where
  | tA
  | tB
  | tR
  deriving DecidableEq, Repr

/-- Shared transport state plus the two callers' program counters. -/
structure TransSys where
  respSlot : Option (List ℕ)
  pcA : ℕ
  pcB : ℕ
  deriving DecidableEq, Repr

/-- One atomic step of a caller executing `send_command`, given the shared
response slot: clear, send, or poll the wait-loop condition. -/
def threadAdvance (pc : ℕ) (resp : Option (List ℕ)) : ℕ × Option (List ℕ) :=
  match pc, resp with
  | 0, _ => (1, none)
  | 1, r => (2, r)
  | 2, some r => (3, some r)
  | 2, none => (2, none)
  | pc, r => (pc, r)

/-- One step of the whole system under a scheduling choice; the receiver
stores the newest datagram as *the* response. -/
def sysStep (s : TransSys) : SchedStep → TransSys
  | SchedStep.tA =>
    let u := threadAdvance s.pcA s.respSlot
    { s with pcA := u.1, respSlot := u.2 }
  | SchedStep.tB =>
    let u := threadAdvance s.pcB s.respSlot
    { s with pcB := u.1, respSlot := u.2 }
  | SchedStep.tR => { s with respSlot := some [111, 107] }

/-- Initial state: empty slot, both callers about to invoke
`send_command`. -/
def initTransSys : TransSys := ⟨none, 0, 0⟩

/-- Run a schedule of interleaved steps from the initial state. -/
def runSched (l : List SchedStep) : TransSys := l.foldl sysStep initTransSys

/-- How many commands are outstanding at the transport: callers that have
performed their `sendto` and whose response slot is not yet resolved. -/
def outstanding (s : TransSys) : ℕ :=
  (if s.pcA = 2 then 1 else 0) + (if s.pcB = 2 then 1 else 0)

/-- Steps that never schedule caller B leave B's program counter alone. -/
theorem pcB_const_of_no_tB :
    ∀ (σ : List SchedStep) (s : TransSys), SchedStep.tB ∉ σ →
      (σ.foldl sysStep s).pcB = s.pcB := by
  intro σ
  induction σ with
  | nil => intro s _; rfl
  | cons a rest ih =>
    intro s h
    have ha : a ≠ SchedStep.tB := fun he => h (he ▸ List.mem_cons_self a rest)
    have hrest : SchedStep.tB ∉ rest := fun he => h (List.mem_cons_of_mem a he)
    have hstep : (sysStep s a).pcB = s.pcB := by
      cases a
      · rfl
      · exact absurd rfl ha
      · rfl
    rw [List.foldl_cons, ih (sysStep s a) hrest, hstep]

/-- Steps that never schedule caller A leave A's program counter alone. -/
theorem pcA_const_of_no_tA :
    ∀ (σ : List SchedStep) (s : TransSys), SchedStep.tA ∉ σ →
      (σ.foldl sysStep s).pcA = s.pcA := by
  intro σ
  induction σ with
  | nil => intro s _; rfl
  | cons a rest ih =>
    intro s h
    have ha : a ≠ SchedStep.tA := fun he => h (he ▸ List.mem_cons_self a rest)
    have hrest : SchedStep.tA ∉ rest := fun he => h (List.mem_cons_of_mem a he)
    have hstep : (sysStep s a).pcA = s.pcA := by
      cases a
      · exact absurd rfl ha
      · rfl
      · rfl
    rw [List.foldl_cons, ih (sysStep s a) hrest, hstep]

/-- At most one caller can be outstanding when A is not at its wait
phase. -/
theorem outstanding_le_one_of_pcA (s : TransSys) (h : s.pcA ≠ 2) :
    outstanding s ≤ 1 := by
  unfold outstanding
  rw [if_neg h]
  split <;> omega

/-- At most one caller can be outstanding when B is not at its wait
phase. -/
theorem outstanding_le_one_of_pcB (s : TransSys) (h : s.pcB ≠ 2) :
    outstanding s ≤ 1 := by
  unfold outstanding
  rw [if_neg h]
  split <;> omega

/-- C2 counterexample: the schedule where caller A clears and sends, then
caller B clears and sends while A's response slot is still unresolved, is
permitted by `send_command` (no step of B blocks on A's pending command),
and it puts two commands outstanding at the transport at once — the
claimed single-flight blocking does not exist in the transport. -/
theorem C2_single_flight_counterexample :
    outstanding (runSched [SchedStep.tA, SchedStep.tA, SchedStep.tB, SchedStep.tB]) = 2 := by
  decide

/-- C2 (amended): the transport itself never blocks a second concurrent
`send`, so two concurrent callers can both be outstanding at once; the
single-flight invariant holds exactly when callers are serialized — if
caller B takes no step until caller A's `send_command` has left its wait
phase, then along every prefix of the schedule at most one command is
outstanding at the transport. -/
theorem C2_single_flight_serialized (σ1 σ2 pre : List SchedStep)
    (h1 : SchedStep.tB ∉ σ1) (h2 : SchedStep.tA ∉ σ2)
    (hdone : (runSched σ1).pcA ≠ 2)
    (hpre : pre <+: σ1 ++ σ2) :
    outstanding (runSched pre) ≤ 1 := by
  obtain ⟨tail, htail⟩ := hpre
  have hlen : pre = (σ1 ++ σ2).take pre.length := by
    rw [← htail, List.take_left]
  by_cases hn : pre.length ≤ σ1.length
  · have hpre1 : pre = σ1.take pre.length := by
      conv_lhs => rw [hlen]
      rw [List.take_append_eq_append_take, Nat.sub_eq_zero_of_le hn,
        List.take_zero, List.append_nil]
    have hB : SchedStep.tB ∉ pre := by
      rw [hpre1]
      exact fun hmem => h1 (List.take_subset pre.length σ1 hmem)
    have : (runSched pre).pcB = 0 := pcB_const_of_no_tB pre initTransSys hB
    exact outstanding_le_one_of_pcB _ (by omega)
  · have hpre2 : pre = σ1 ++ σ2.take (pre.length - σ1.length) := by
      conv_lhs => rw [hlen]
      rw [List.take_append_eq_append_take, List.take_of_length_le (by omega)]
    have hA : SchedStep.tA ∉ σ2.take (pre.length - σ1.length) :=
      fun hmem => h2 (List.take_subset _ σ2 hmem)
    have hpcA : (runSched pre).pcA = (runSched σ1).pcA := by
      rw [hpre2]
      unfold runSched
      rw [List.foldl_append]
      exact pcA_const_of_no_tA _ _ hA
    exact outstanding_le_one_of_pcA _ (by rw [hpcA]; exact hdone)

/-- Witness for C2: caller A completes a full send (clear, send, receiver
delivers, A returns) before caller B starts; at the full schedule at most
one command is outstanding, evaluated through
`C2_single_flight_serialized`. -/
theorem C2_single_flight_witness :
    outstanding (runSched ([SchedStep.tA, SchedStep.tA, SchedStep.tR, SchedStep.tA] ++
      [SchedStep.tB, SchedStep.tB])) ≤ 1 :=
  C2_single_flight_serialized
    [SchedStep.tA, SchedStep.tA, SchedStep.tR, SchedStep.tA]
    [SchedStep.tB, SchedStep.tB]
    ([SchedStep.tA, SchedStep.tA, SchedStep.tR, SchedStep.tA] ++
      [SchedStep.tB, SchedStep.tB])
    (by decide) (by decide) (by decide) List.prefix_rfl

/-! ## JSON command values and the control agent
(`agents/control_agent.py`)

A JSON value as handled by `json.loads` / the Python dicts the control
agent builds.  `ControlAgent._validate_command` checks only: the value is
a dict, the three required fields are present, the `action` value is one
of the seven closed kinds, and `safety_check` is a bool — it reads the
`parameters` field nowhere, so the numeric ranges declared in
`command_schema` are not enforced by it. -/

/-- JSON values. -/
inductive JVal where
  | jstr : String → JVal
  | jnum : Int → JVal
  | jbool : Bool → JVal
  | jobj : List (String × JVal) → JVal
  | jnull : JVal

/-- The `valid_actions` list of `_validate_command` (also the `enum` of
`command_schema`). -/
def valid_actions : List String :=
  ["takeoff", "land", "move", "rotate", "hover", "scan", "emergency"]

/-- Python `isinstance(x, bool)` on a looked-up JSON field. -/
def isBoolVal : Option JVal → Bool
  | some (JVal.jbool _) => true
  | _ => false

/-- `ControlAgent._validate_command` (control_agent.py lines 140-172). -/
def _validate_command (command : JVal) : Bool :=
  match command with
  | JVal.jobj fields =>
    if ["action", "description", "safety_check"].all
        (fun f => (dictLookup fields f).isSome) then
      match dictLookup fields "action" with
      | some (JVal.jstr a) =>
        if valid_actions.contains a then
          isBoolVal (dictLookup fields "safety_check")
        else false
      | _ => false
    else false
  | _ => false

/-- A `move(forward, dist)` command dict as the language model would
return it. -/
def cmdMove (dist : Int) : JVal :=
  JVal.jobj
    [("action", JVal.jstr "move"),
     ("parameters", JVal.jobj
        [("direction", JVal.jstr "forward"), ("distance", JVal.jnum dist)]),
     ("description", JVal.jstr "Moving forward"),
     ("safety_check", JVal.jbool true)]

/-- A `rotate(angle)` command dict as the language model would return
it. -/
def cmdRotate (angle : Int) : JVal :=
  JVal.jobj
    [("action", JVal.jstr "rotate"),
     ("parameters", JVal.jobj [("angle", JVal.jnum angle)]),
     ("description", JVal.jstr "Rotating"),
     ("safety_check", JVal.jbool true)]

/-- Replacing one key leaves lookups of other keys unchanged (map-replace
branch). -/
theorem dictLookup_map_replace {α : Type} (k k' : String) (v : α)
    (h : k' ≠ k) :
    ∀ d : List (String × α),
      dictLookup (d.map (fun p => if p.1 = k then (k, v) else p)) k' =
        dictLookup d k' := by
  intro d
  induction d with
  | nil => rfl
  | cons p rest ih =>
    rw [List.map_cons]
    by_cases hp : p.1 = k
    · rw [if_pos hp]
      have hne : ¬ k = k' := fun he => h he.symm
      have hne' : ¬ p.1 = k' := by rw [hp]; exact hne
      simp [dictLookup, hne, hne', ih]
    · rw [if_neg hp]
      by_cases hk' : p.1 = k'
      · simp [dictLookup, hk']
      · simp [dictLookup, hk', ih]

/-- Appending a pair with a different key leaves lookups unchanged. -/
theorem dictLookup_append_single {α : Type} (k k' : String) (v : α)
    (h : k' ≠ k) :
    ∀ d : List (String × α),
      dictLookup (d ++ [(k, v)]) k' = dictLookup d k' := by
  intro d
  induction d with
  | nil =>
    have hne : ¬ k = k' := fun he => h he.symm
    simp [dictLookup, hne]
  | cons p rest ih =>
    by_cases hk' : p.1 = k'
    · simp [dictLookup, hk']
    · simp [dictLookup, hk', ih]

/-- `d[k] = v` leaves lookups of any other key unchanged. -/
theorem dictLookup_dictInsert_ne {α : Type} (d : List (String × α))
    (k k' : String) (v : α) (h : k' ≠ k) :
    dictLookup (dictInsert d k v) k' = dictLookup d k' := by
  unfold dictInsert
  split
  · exact dictLookup_map_replace k k' v h d
  · exact dictLookup_append_single k k' v h d

/-- C7 counterexample: `_validate_command` accepts both
`move(forward, 501)` and `rotate(361)`, although the claim says every
action with parameters outside the schema ranges is rejected before
dispatch. -/
theorem C7_validator_counterexample :
    _validate_command (cmdMove 501) = true ∧
    _validate_command (cmdRotate 361) = true := by
  exact ⟨rfl, rfl⟩

/-- C7 (amended): the validator accepts `move(forward, 500)` and
`rotate(360)`; but validation is purely structural — its verdict is
independent of the `parameters` field, so the out-of-range
`move(forward, 501)` and `rotate(361)` are accepted as well; no value is
clamped (the command dict passes through unchanged). -/
theorem C7_validator_boundaries :
    _validate_command (cmdMove 500) = true ∧
    _validate_command (cmdRotate 360) = true ∧
    _validate_command (cmdMove 501) = true ∧
    _validate_command (cmdRotate 361) = true ∧
    ∀ (fields : List (String × JVal)) (p : JVal),
      _validate_command (JVal.jobj (dictInsert fields "parameters" p)) =
        _validate_command (JVal.jobj fields) := by
  refine ⟨rfl, rfl, rfl, rfl, ?_⟩
  intro fields p
  have ha := dictLookup_dictInsert_ne fields "parameters" "action" p (by decide)
  have hd := dictLookup_dictInsert_ne fields "parameters" "description" p (by decide)
  have hs := dictLookup_dictInsert_ne fields "parameters" "safety_check" p (by decide)
  simp only [_validate_command, List.all_cons, List.all_nil, ha, hd, hs]

/-- Oracle for the externally produced part of
`ControlAgent.process_command`: the Azure OpenAI call raising, the
`json.loads` of its reply raising, or a parsed JSON value. -/
inductive LlmOutcome where
  | apiError : String → LlmOutcome
  | parseError : String → LlmOutcome
  | parsed : JVal → LlmOutcome

/-- `ControlAgent._get_error_command` (control_agent.py lines 174-189). -/
def _get_error_command (error_message : String) : JVal :=
  JVal.jobj
    [("action", JVal.jstr "emergency"),
     ("description", JVal.jstr ("Command processing failed: " ++ error_message)),
     ("safety_check", JVal.jbool false),
     ("error", JVal.jbool true)]

/-- `ControlAgent.process_command` (control_agent.py lines 73-114): any
exception out of the API call, the JSON parse, or the schema-mismatch
`raise` is caught by the blanket handler, which returns
`_get_error_command(str(e))`; a validated parse is returned as-is. -/
def process_command (outcome : LlmOutcome) : JVal :=
  match outcome with
  | LlmOutcome.apiError e => _get_error_command e
  | LlmOutcome.parseError e => _get_error_command e
  | LlmOutcome.parsed cj =>
    if _validate_command cj then cj
    else _get_error_command "Generated command does not match expected schema"

/-- The failure reason `process_command` would report for an outcome, or
`none` when the outcome is a validated command. -/
def failureReason : LlmOutcome → Option String
  | LlmOutcome.apiError e => some e
  | LlmOutcome.parseError e => some e
  | LlmOutcome.parsed cj =>
    if _validate_command cj then none
    else some "Generated command does not match expected schema"

/-- Field access on a JSON command dict. -/
def cmdField (c : JVal) (k : String) : Option JVal :=
  match c with
  | JVal.jobj fields => dictLookup fields k
  | _ => none

/-- A string contains its own suffix (Python `b in a + b`). -/
theorem strContains_append_right (a b : String) : strContains (a ++ b) b = true := by
  simp [strContains]
  exact (List.suffix_append a.data b.data).isInfix

/-- C10: `process_command` is total — modelled over every oracle outcome —
and on every internal failure (API error, invalid JSON, schema mismatch)
it returns a command dict with action `"emergency"`, `safety_check`
`False`, `error` `True`, and a human-readable description containing the
failure reason. -/
theorem C10_process_command_total (o : LlmOutcome) (r : String)
    (h : failureReason o = some r) :
    cmdField (process_command o) "action" = some (JVal.jstr "emergency") ∧
    cmdField (process_command o) "safety_check" = some (JVal.jbool false) ∧
    cmdField (process_command o) "error" = some (JVal.jbool true) ∧
    ∃ d, cmdField (process_command o) "description" = some (JVal.jstr d) ∧
      strContains d r = true := by
  cases o with
  | apiError e =>
    obtain rfl : e = r := by simpa [failureReason] using h
    exact ⟨rfl, rfl, rfl, _, rfl, strContains_append_right _ _⟩
  | parseError e =>
    obtain rfl : e = r := by simpa [failureReason] using h
    exact ⟨rfl, rfl, rfl, _, rfl, strContains_append_right _ _⟩
  | parsed cj =>
    by_cases hv : _validate_command cj = true
    · simp [failureReason, hv] at h
    · have hv' : _validate_command cj = false := by simpa using hv
      have hr : r = "Generated command does not match expected schema" := by
        have := h
        simp [failureReason, hv'] at this
        exact this.symm
      subst hr
      simp only [process_command, hv', Bool.false_eq_true, if_false]
      exact ⟨rfl, rfl, rfl, _, rfl, strContains_append_right _ _⟩

/-- Witness for C10: the API call raising with message `"boom"` yields
the emergency error command, evaluated through
`C10_process_command_total`. -/
theorem C10_process_command_total_witness :
    cmdField (process_command (LlmOutcome.apiError "boom")) "action" =
      some (JVal.jstr "emergency") ∧
    cmdField (process_command (LlmOutcome.apiError "boom")) "safety_check" =
      some (JVal.jbool false) ∧
    cmdField (process_command (LlmOutcome.apiError "boom")) "error" =
      some (JVal.jbool true) ∧
    ∃ d, cmdField (process_command (LlmOutcome.apiError "boom")) "description" =
      some (JVal.jstr d) ∧ strContains d "boom" = true :=
  C10_process_command_total (LlmOutcome.apiError "boom") "boom" rfl

/-! ## 360-degree scan choreography (`main.py`, `_execute_360_scan`)

The sweep runs `for step in range(8)`: compute `current_angle = step * 45`,
dispatch `DroneCommand(ROTATE_CLOCKWISE, 45)`, `await asyncio.sleep(2)`,
then — when `self.latest_analysis` is truthy and its `objects` list is
non-empty — store every object under the key
`f"{current_angle}°_object_{i}"` with the cumulative angle, `str(obj)` and
`getattr(obj, 'confidence', 0.0)`.  At the end it reports
`len(detected_objects)` as the total.  The per-step `latest_analysis`
snapshot is the oracle `snapshots` (`none` for a falsy analysis). -/

/-- An object reported by the perception collaborator: its `str(...)`
rendering and an optional `confidence` attribute. -/
structure VisionObj where
  descr : String
  confidence : Option ℚ

/-- One detected-objects dict entry: cumulative angle tag, description,
and confidence (defaulting to 0 as `getattr(obj, 'confidence', 0.0)`
does). -/
structure DetectedObj where
  angle : ℕ
  description : String
  confidence : ℚ

/-- The `for i, obj in enumerate(objects)` recording loop at one angle:
insert each object under `f"{angle}°_object_{i}"`. -/
def recordObjects (angle : ℕ) :
    ℕ → List VisionObj → List (String × DetectedObj) →
      List (String × DetectedObj)
  | _, [], d => d
  | i, o :: rest, d =>
    recordObjects angle (i + 1) rest
      (dictInsert d (toString angle ++ "°_object_" ++ toString i)
        ⟨angle, o.descr, o.confidence.getD 0⟩)

/-- Observable state of one sweep: the rotate commands dispatched (action,
degrees), the settle waits performed (ms), and the detected-objects
dict. -/
structure ScanState where
  commands : List (DroneAction × ℕ)
  settleWaitsMs : List ℕ
  detected : List (String × DetectedObj)

/-- One `for step in range(8)` iteration: rotate 45° clockwise, wait the
fixed 2000 ms settle interval, then record the objects of the latest
perception snapshot (when the analysis is truthy and non-empty) tagged
with `step * 45`. -/
def scanStep (snapshots : ℕ → Option (List VisionObj)) (st : ScanState)
    (step : ℕ) : ScanState :=
  match snapshots step with
  | none =>
    { commands := st.commands ++ [(DroneAction.rotate_cw, 45)]
      settleWaitsMs := st.settleWaitsMs ++ [2000]
      detected := st.detected }
  | some objs =>
    if objs.isEmpty then
      { commands := st.commands ++ [(DroneAction.rotate_cw, 45)]
        settleWaitsMs := st.settleWaitsMs ++ [2000]
        detected := st.detected }
    else
      { commands := st.commands ++ [(DroneAction.rotate_cw, 45)]
        settleWaitsMs := st.settleWaitsMs ++ [2000]
        detected := recordObjects (step * 45) 0 objs st.detected }

/-- `TelloDroneAgent._execute_360_scan` (main.py lines 190-238). -/
def _execute_360_scan (snapshots : ℕ → Option (List VisionObj)) : ScanState :=
  (List.range 8).foldl (scanStep snapshots) ⟨[], [], []⟩

set_option maxHeartbeats 1600000 in
/-- C8: given per-step perception snapshots each reporting exactly one
object, a full sweep issues exactly 8 clockwise rotate commands of 45°
each, waits the fixed 2-second settle interval after each, records every
snapshot's object tagged with the cumulative angle `step * 45`, and its
summary reports 8 total detections. -/
theorem C8_full_sweep (snapshots : ℕ → Option (List VisionObj))
    (h : ∀ i, i < 8 → ∃ o : VisionObj, snapshots i = some [o]) :
    (_execute_360_scan snapshots).commands =
      List.replicate 8 (DroneAction.rotate_cw, 45) ∧
    (_execute_360_scan snapshots).settleWaitsMs = List.replicate 8 2000 ∧
    (_execute_360_scan snapshots).detected.length = 8 ∧
    (_execute_360_scan snapshots).detected.map (fun e => e.2.angle) =
      [0, 45, 90, 135, 180, 225, 270, 315] := by
  obtain ⟨o0, h0⟩ := h 0 (by omega)
  obtain ⟨o1, h1⟩ := h 1 (by omega)
  obtain ⟨o2, h2⟩ := h 2 (by omega)
  obtain ⟨o3, h3⟩ := h 3 (by omega)
  obtain ⟨o4, h4⟩ := h 4 (by omega)
  obtain ⟨o5, h5⟩ := h 5 (by omega)
  obtain ⟨o6, h6⟩ := h 6 (by omega)
  obtain ⟨o7, h7⟩ := h 7 (by omega)
  have hrange : List.range 8 = [0, 1, 2, 3, 4, 5, 6, 7] := by decide
  simp only [_execute_360_scan, hrange, List.foldl_cons, List.foldl_nil,
    scanStep, h0, h1, h2, h3, h4, h5, h6, h7]
  exact ⟨rfl, rfl, rfl, rfl⟩

/-- Witness for C8: eight snapshots each holding one distinct object,
evaluated through `C8_full_sweep`. -/
theorem C8_full_sweep_witness :
    (_execute_360_scan (fun i => some [⟨"obj" ++ toString i, none⟩])).commands =
      List.replicate 8 (DroneAction.rotate_cw, 45) ∧
    (_execute_360_scan (fun i => some [⟨"obj" ++ toString i, none⟩])).settleWaitsMs =
      List.replicate 8 2000 ∧
    (_execute_360_scan (fun i => some [⟨"obj" ++ toString i, none⟩])).detected.length = 8 ∧
    (_execute_360_scan (fun i => some [⟨"obj" ++ toString i, none⟩])).detected.map
      (fun e => e.2.angle) = [0, 45, 90, 135, 180, 225, 270, 315] :=
  C8_full_sweep (fun i => some [⟨"obj" ++ toString i, none⟩])
    (fun i _ => ⟨⟨"obj" ++ toString i, none⟩, rfl⟩)

/-! ## VisionAssist flag dynamics (`main.py`, `execute_user_commands`)

Per command, in order (main.py lines 139-178):
* before dispatch, when the lower-cased command text contains one of the
  perception keywords, set `vision_analysis_enabled = True`;
* the 360-scan branch (a `ROTATE_CLOCKWISE` command whose text contains
  `"360"` and `"analyze"`) runs `_execute_360_scan`, which sets the flag
  `True` on entry and unconditionally sets it `False` at its end;
* after the command, unless the text contains `"continuous"` or
  `"monitor"`, set the flag `False`. -/

/-- The perception keyword list of `execute_user_commands`. -/
def perceptionKeywords : List String :=
  ["analyze", "detect", "find", "scan", "rotate", "capture", "search", "look"]

/-- `any(keyword in command_text.lower() for keyword in [...])`. -/
def hasPerceptionKeyword (text : String) : Bool :=
  perceptionKeywords.any (fun k => strContains (lowerStr text) k)

/-- The 360-scan trigger test of `execute_user_commands` (lines 159-160):
a clockwise rotate whose text contains `"360"` and `"analyze"`. -/
def is360ScanCommand (a : DroneAction) (text : String) : Bool :=
  decide (a = DroneAction.rotate_cw) && strContains (lowerStr text) "360" &&
    strContains (lowerStr text) "analyze"

/-- The continuous/monitoring test guarding the post-command clear
(line 176). -/
def keepsVisionOn (text : String) : Bool :=
  strContains (lowerStr text) "continuous" || strContains (lowerStr text) "monitor"

/-- The `vision_analysis_enabled` flag observed at the three points of one
executed command: right before dispatch, right after the command (and any
choreography) completed, and after the post-command clear step. -/
structure VisionFlagTrace where
  atDispatch : Bool
  afterCommand : Bool
  final : Bool
  deriving DecidableEq, Repr

/-- The flag dynamics of one `execute_user_commands` iteration for a
command with the given text that dispatches the given action, starting
from flag value `vision`. -/
def execCommandVisionFlag (vision : Bool) (text : String) (action : DroneAction) :
    VisionFlagTrace :=
  let atDispatch := if hasPerceptionKeyword text then true else vision
  let afterCommand := if is360ScanCommand action text then false else atDispatch
  let final := if keepsVisionOn text then afterCommand else false
  ⟨atDispatch, afterCommand, final⟩

/-- C9 counterexample: for the command "rotate 360 degrees and analyze
continuously" the flag is on at dispatch, but the sweep choreography
clears it unconditionally at its end, and the continuous-intent guard
then skips the clear without restoring it — so VisionAssist ends off even
though the instruction text indicates continuous intent, contrary to the
claim that it remains on. -/
theorem C9_vision_flag_counterexample :
    (execCommandVisionFlag false "rotate 360 degrees and analyze continuously"
      DroneAction.rotate_cw).atDispatch = true ∧
    keepsVisionOn "rotate 360 degrees and analyze continuously" = true ∧
    (execCommandVisionFlag false "rotate 360 degrees and analyze continuously"
      DroneAction.rotate_cw).final = false := by
  exact ⟨by decide, by decide, by decide⟩

/-- C9 (amended): the flag is turned on before dispatch whenever the
command text matches a perception keyword; after the command completes
the flag is off unless the text indicates continuous/monitoring intent;
for continuous/monitoring commands that are not the 360-sweep the flag
keeps the value it had at dispatch; but the 360-sweep choreography clears
the flag unconditionally at its end, so even a continuous-intent sweep
command finishes with VisionAssist off. -/
theorem C9_vision_flag (vision : Bool) (text : String) (action : DroneAction) :
    (hasPerceptionKeyword text = true →
      (execCommandVisionFlag vision text action).atDispatch = true) ∧
    (keepsVisionOn text = false →
      (execCommandVisionFlag vision text action).final = false) ∧
    (keepsVisionOn text = true → is360ScanCommand action text = false →
      (execCommandVisionFlag vision text action).final =
        (execCommandVisionFlag vision text action).atDispatch) ∧
    (is360ScanCommand action text = true →
      (execCommandVisionFlag vision text action).afterCommand = false ∧
      (execCommandVisionFlag vision text action).final = false) := by
  unfold execCommandVisionFlag
  refine ⟨?_, ?_, ?_, ?_⟩
  · intro hkw
    simp [hkw]
  · intro hko
    simp [hko]
  · intro hko h360
    simp [hko, h360]
  · intro h360
    constructor
    · simp [h360]
    · by_cases hko : keepsVisionOn text = true
      · simp [h360, hko]
      · simp [h360, hko]

/-- Witness for C9: a continuous non-sweep command keeps its dispatch-time
flag value, and a keyword-free non-continuous command ends with the flag
off, both evaluated through `C9_vision_flag`. -/
theorem C9_vision_flag_witness :
    (execCommandVisionFlag false "scan the room continuously" DroneAction.hover).final =
      (execCommandVisionFlag false "scan the room continuously" DroneAction.hover).atDispatch ∧
    (execCommandVisionFlag true "take off" DroneAction.takeoff).final = false :=
  ⟨(C9_vision_flag false "scan the room continuously" DroneAction.hover).2.2.1
      (by decide) (by decide),
   (C9_vision_flag true "take off" DroneAction.takeoff).2.1 (by decide)⟩
